import Mathlib

/-!
Verification development for the llkms document-to-index pipeline.

The Python source is shallowly embedded: strings are lists of characters,
Python dictionaries that rely on insertion order are ordered association
lists, fallible calls return `Except`, and the external collaborators
(object store, per-format extractors, embedding and chat models) are
capabilities carried in an explicit environment record.  Python floats
(the `total_cost` counter) are modelled as IEEE-754 binary64 values,
represented exactly as integer multiples of 2 ^ (-1074) with
round-to-nearest, ties-to-even on every addition.
-/

instance {ε α : Type} [DecidableEq ε] [DecidableEq α] : DecidableEq (Except ε α) := fun x y =>
  match x, y with
  | Except.ok a, Except.ok b =>
    if h : a = b then Decidable.isTrue (by rw [h])
    else Decidable.isFalse (fun hh => h (Except.ok.inj hh))
  | Except.error a, Except.error b =>
    if h : a = b then Decidable.isTrue (by rw [h])
    else Decidable.isFalse (fun hh => h (Except.error.inj hh))
  | Except.ok _, Except.error _ => Decidable.isFalse (fun hh => Except.noConfusion hh)
  | Except.error _, Except.ok _ => Decidable.isFalse (fun hh => Except.noConfusion hh)

/-- A langchain `Document`: the unit of chunking, embedding and retrieval.
The page content is a list of characters; metadata is not needed by any
claim and is omitted. -/
structure Document where
  pageContent : List Char
deriving DecidableEq, Inhabited

/-- Lower-case a single ASCII character, as Python `str.lower` does on the
ASCII range used by the extension checks. -/
def lowerChar (c : Char) : Char :=
  if 'A' ≤ c ∧ c ≤ 'Z' then Char.ofNat (c.toNat + 32) else c

/-- `str.lower()` on a character-list string. -/
def lowerStr (s : List Char) : List Char := s.map lowerChar

/-- `str.endswith(suffix)` on character-list strings. -/
def endsWithCh (s suffixStr : List Char) : Bool :=
  List.isPrefixOf suffixStr.reverse s.reverse

def txtExt : List Char := ".txt".data
def pdfExt : List Char := ".pdf".data
def pngExt : List Char := ".png".data
def jpgExt : List Char := ".jpg".data
def jpegExt : List Char := ".jpeg".data
def docxExt : List Char := ".docx".data
def htmlExt : List Char := ".html".data
def htmExt : List Char := ".htm".data
def slashMark : List Char := "/".data

/-! ## Chunker

Modelled from the spec: the Chunker (`RecursiveCharacterTextSplitter`
configured with `chunk_size=1000, chunk_overlap=200` in
`DocumentProcessor.__init__`) is provided by the external langchain
library and is not part of the repository source.  Following §4.1 of the
spec, it splits text into segments of at most `chunk_size` characters
with `chunk_overlap` characters shared between consecutive segments,
preferring to break on larger semantic boundaries (paragraph, then
sentence, then word) before falling back to a hard character cut. -/

/-- A paragraph/line boundary character. -/
def isParagraphBreak (c : Char) : Bool := c = '\n'

/-- A sentence boundary character. -/
def isSentenceBreak (c : Char) : Bool := c = '.'

/-- A word boundary character. -/
def isWordBreak (c : Char) : Bool := c = ' '

/-- Whether the character at position `i` of `text` satisfies `pred`. -/
def charAt (pred : Char → Bool) (text : List Char) (i : Nat) : Bool :=
  match text.get? i with
  | some c => pred c
  | none => false

/-- Greatest cut position `p` with `lo < p ≤ hi` such that the character
just before position `p` satisfies `pred`; `none` when there is no such
boundary.  Searches downward from `hi`. -/
def lastCutBefore (pred : Char → Bool) (text : List Char) (lo : Nat) : Nat → Option Nat
  | 0 => none
  | hi + 1 =>
    if lo < hi + 1 ∧ charAt pred text hi = true then some (hi + 1)
    else lastCutBefore pred text lo hi

/-- Cut length for the next chunk: the whole text when it fits in
`size`, otherwise the last paragraph boundary in `(overlap, size]`, else
the last sentence boundary, else the last word boundary, else a hard cut
at `size`. -/
def chooseCut (size overlap : Nat) (text : List Char) : Nat :=
  if text.length ≤ size then text.length
  else
    match lastCutBefore isParagraphBreak text overlap size with
    | some p => p
    | none =>
      match lastCutBefore isSentenceBreak text overlap size with
      | some p => p
      | none =>
        match lastCutBefore isWordBreak text overlap size with
        | some p => p
        | none => size

/-- Fuel-indexed splitting loop: emit a chunk of `chooseCut` characters;
if the remainder of the text did not fit entirely in that chunk, continue
from `cut - overlap` so that `overlap` characters are shared between
consecutive chunks. -/
def splitChunksAux (size overlap : Nat) : Nat → List Char → List (List Char)
  | 0, _ => []
  | fuel + 1, rest =>
    if rest.isEmpty then []
    else
      let cut := chooseCut size overlap rest
      if rest.length ≤ size then [rest]
      else rest.take cut :: splitChunksAux size overlap fuel (rest.drop (cut - overlap))

/-- Split `text` into overlapping chunks of at most `size` characters. -/
def splitText (size overlap : Nat) (text : List Char) : List (List Char) :=
  splitChunksAux size overlap text.length text

/-- `DocumentProcessor.process_text`: convert text content into document
chunks via the configured splitter (`chunk_size=1000, chunk_overlap=200`). -/
def DocumentProcessor.process_text (content : List Char) : List Document :=
  (splitText 1000 200 content).map Document.mk

/-! ## Vector store and on-disk cache (`vector_store_manager.py`) -/

/-- An embedding vector. -/
abbrev EmbVec := List Int

/-- A persisted cache artifact: absent from disk, present but failing to
open or deserialize, or present with readable data. -/
inductive FileState (datum : Type)
  | absent
  | unreadable
  | readable (data : datum)
deriving DecidableEq

/-- The two co-located artifacts of the cache slot:
`faiss_index.index` and `docs.pkl`. -/
structure FS where
  indexFile : FileState (List EmbVec)
  docsFile : FileState (List (String × Document))
deriving DecidableEq

/-- Whether a path exists on disk (`Path.exists()`): presence only,
regardless of readability. -/
def FileState.present {datum : Type} : FileState datum → Bool
  | .absent => false
  | _ => true

/-- Whether an artifact is present and can actually be opened and
deserialized. -/
def FileState.isReadable {datum : Type} : FileState datum → Bool
  | .readable _ => true
  | _ => false

/-- The FAISS vector store: the embedded vectors of the index, the
`InMemoryDocstore._dict` id-to-document mapping (an insertion-ordered
association list), and the internal-id-to-docstore-id map
(position `i` holds the docstore id of vector `i`). -/
structure VectorStore where
  index : List EmbVec
  docstore : List (String × Document)
  index_to_docstore_id : List String
deriving DecidableEq

/-- Error taxonomy of the embedded code paths. -/
inductive Err
  | emptyCorpus
  | libIndexError
  | unsupportedProvider (p : String)
  | apiKeyNotFound (p : String)
  | cacheIOError
  | fileError (msg : String)
deriving DecidableEq

/-- `VectorStoreManager.exists`: `self.index_path.exists() and
self.docs_path.exists()`. -/
def VectorStoreManager.cacheExists (fs : FS) : Bool :=
  fs.indexFile.present && fs.docsFile.present

/-- `VectorStoreManager.save`: `faiss.write_index` the index structure and
`pickle.dump` the `docstore._dict` mapping, overwriting both artifacts.
The `index_to_docstore_id` map is not written. -/
def VectorStoreManager.save (vector_store : VectorStore) (fs : FS) : FS :=
  { indexFile := FileState.readable vector_store.index
    docsFile := FileState.readable vector_store.docstore }

/-- Opening and deserializing an artifact (`faiss.read_index` /
`pickle.load`): raises on a missing or unreadable file. -/
def readArtifact {datum : Type} : FileState datum → Except Err datum
  | .readable d => Except.ok d
  | .unreadable => Except.error Err.cacheIOError
  | .absent => Except.error Err.cacheIOError

/-- `VectorStoreManager.load`: `None` when the cache does not exist;
otherwise read both artifacts (exceptions propagate) and rebuild the
store, reconstructing `index_to_docstore_id` by enumerating the keys of
the deserialized docstore mapping in order. -/
def VectorStoreManager.load (fs : FS) : Except Err (Option VectorStore) :=
  if VectorStoreManager.cacheExists fs = false then Except.ok none
  else do
    let index ← readArtifact fs.indexFile
    let docs_dict ← readArtifact fs.docsFile
    Except.ok (some { index := index
                      docstore := docs_dict
                      index_to_docstore_id := docs_dict.map Prod.fst })

/-! ### Similarity search over the store -/

/-- Squared L2 distance between a query vector and an index vector. -/
def l2dist (q v : EmbVec) : Nat :=
  (((q.zip v).map fun p => ((p.1 - p.2) * (p.1 - p.2)).toNat).foldl (· + ·) 0)

/-- Comparison of `(distance, internal id)` pairs: by distance, breaking
ties by internal id, matching deterministic index order. -/
def pairLe (a b : Nat × Nat) : Bool :=
  if a.1 < b.1 then true
  else if b.1 < a.1 then false
  else if a.2 ≤ b.2 then true else false

/-- Insert into a list sorted by `pairLe`. -/
def insertRanked (x : Nat × Nat) : List (Nat × Nat) → List (Nat × Nat)
  | [] => [x]
  | y :: ys => if pairLe x y then x :: y :: ys else y :: insertRanked x ys

/-- Insertion sort by `pairLe`. -/
def sortRanked : List (Nat × Nat) → List (Nat × Nat)
  | [] => []
  | x :: xs => insertRanked x (sortRanked xs)

/-- Nearest-neighbor search: internal ids of the `k` index vectors
closest to the query embedding, in rank order. -/
def searchIds (index : List EmbVec) (q : EmbVec) (k : Nat) : List Nat :=
  ((sortRanked ((index.enum).map fun p => (l2dist q p.2, p.1))).map Prod.snd).take k

/-- Retrieval outcome for a fixed query: the docstore ids of the top-`k`
chunks, in rank order (the observable compared by the round-trip
property). -/
def VectorStore.retrievedIds (vs : VectorStore) (q : EmbVec) (k : Nat) : List (Option String) :=
  (searchIds vs.index q k).map fun i => vs.index_to_docstore_id.get? i

/-! ## Vector index builder (`document_processor.py`) -/

/-- Usage figures reported by `get_openai_callback` around the embedding
call in `create_vector_store`; only these three keys are put in the
returned usage dictionary. -/
structure EmbedCb where
  total_tokens : Nat
  total_cost : Int
  successful_requests : Nat

/-- A usage dictionary merged into the running totals; `none` models a
key missing from the dictionary. -/
structure UsageDelta where
  total_tokens : Option Nat := none
  prompt_tokens : Option Nat := none
  completion_tokens : Option Nat := none
  total_cost : Option Int := none
  successful_requests : Option Nat := none
deriving DecidableEq

/-- `FAISS.from_documents`: embeds every document, generates a fresh
docstore id per document (`mkId`, modelling uuid generation), and builds
the index, docstore and internal-id map in one insertion order.  On an
empty document list the library fails with an `IndexError`
(`len(embeddings[0])`) before any index is built. -/
def FAISS.from_documents (embed : List Char → EmbVec) (mkId : Nat → String)
    (documents : List Document) : Except Err VectorStore :=
  if documents.isEmpty then Except.error Err.libIndexError
  else
    Except.ok { index := documents.map fun d => embed d.pageContent
                docstore := (documents.enum).map fun p => (mkId p.1, p.2)
                index_to_docstore_id := (documents.enum).map fun p => mkId p.1 }

/-- `DocumentProcessor.create_vector_store`: build the FAISS store from
the documents and report the embedding usage surfaced by the callback
(a dictionary with only `total_tokens`, `total_cost` and
`successful_requests`). -/
def DocumentProcessor.create_vector_store (embed : List Char → EmbVec) (mkId : Nat → String)
    (cb : EmbedCb) (documents : List Document) : Except Err (VectorStore × UsageDelta) :=
  (FAISS.from_documents embed mkId documents).map fun vector_store =>
    (vector_store,
      { total_tokens := some cb.total_tokens
        total_cost := some cb.total_cost
        successful_requests := some cb.successful_requests })

/-! ## Binary64 cost arithmetic

Python floats are IEEE-754 binary64.  Every finite double is an integer
multiple of 2 ^ (-1074), so a double value is represented here as that
integer multiple.  Addition of two doubles adds the integers exactly and
then rounds the sum to at most 53 significant bits with round-to-nearest,
ties-to-even — exactly the binary64 semantics for results in the finite
(non-overflowing) range. -/

/-- Bit length of a natural number, with structural fuel. -/
def bitLenAux : Nat → Nat → Nat
  | 0, _ => 0
  | fuel + 1, n => if n = 0 then 0 else bitLenAux fuel (n / 2) + 1

/-- Bit length of a natural number. -/
def bitLen (n : Nat) : Nat := bitLenAux n n

/-- Round `n` to the nearest multiple of `ulp`, ties to the even
multiple. -/
def roundHalfEven (n ulp : Nat) : Nat :=
  let q := n / ulp
  let r := n % ulp
  if 2 * r < ulp then q * ulp
  else if ulp < 2 * r then (q + 1) * ulp
  else if q % 2 = 0 then q * ulp else (q + 1) * ulp

/-- Round a real value (an integer multiple of 2 ^ (-1074)) to the
nearest binary64 value: keep at most 53 significant bits. -/
def roundF (x : Int) : Int :=
  let n := x.natAbs
  if bitLen n ≤ 53 then x
  else
    let r := roundHalfEven n (2 ^ (bitLen n - 53))
    if x < 0 then -(r : Int) else (r : Int)

/-- Binary64 addition: exact sum, then rounding. -/
def fadd (a b : Int) : Int := roundF (a + b)

/-! ## Usage accumulator (`DocumentProcessingPipeline._update_usage`) -/

/-- The running usage totals owned by the pipeline
(`self.total_usage`). -/
structure Usage where
  total_tokens : Nat
  prompt_tokens : Nat
  completion_tokens : Nat
  total_cost : Int
  successful_requests : Nat
deriving DecidableEq

/-- The zeroed totals set up in `DocumentProcessingPipeline.__init__`. -/
def initialUsage : Usage :=
  { total_tokens := 0
    prompt_tokens := 0
    completion_tokens := 0
    total_cost := 0
    successful_requests := 0 }

/-- `DocumentProcessingPipeline._update_usage`: add each field of the
delta dictionary into the running totals, `usage.get(key, 0)` treating a
missing key as zero; the cost field is float addition. -/
def DocumentProcessingPipeline.update_usage (total : Usage) (usage : UsageDelta) : Usage :=
  { total_tokens := total.total_tokens + (usage.total_tokens.getD 0)
    prompt_tokens := total.prompt_tokens + (usage.prompt_tokens.getD 0)
    completion_tokens := total.completion_tokens + (usage.completion_tokens.getD 0)
    total_cost := fadd total.total_cost (usage.total_cost.getD 0)
    successful_requests := total.successful_requests + (usage.successful_requests.getD 0) }

/-! ## Model factory (`model_factory.py`) -/

/-- `ModelConfig` dataclass. -/
structure ModelConfig where
  provider : String
  model_name : String
  api_key : Option String := none
  api_base : Option String := none
  max_tokens : Nat := 1024
  temperature : Int := 0
deriving DecidableEq

/-- One entry of `ModelFactory.PROVIDER_CONFIGS`. -/
structure ProviderConfig where
  api_base : String
  api_key_env : String
deriving DecidableEq

/-- The static provider registry `ModelFactory.PROVIDER_CONFIGS`. -/
def ModelFactory.PROVIDER_CONFIGS (p : String) : Option ProviderConfig :=
  if p = "deepseek" then
    some { api_base := "https://api.deepseek.com", api_key_env := "DEEPSEEK_API_KEY" }
  else if p = "openai" then
    some { api_base := "https://api.openai.com/v1", api_key_env := "OPENAI_API_KEY" }
  else none

/-- Python truthiness of an optional string: `None` and the empty string
are falsy. -/
def pyTruthy : Option String → Option String
  | none => none
  | some s => if s = "" then none else some s

/-- The resolved `ChatOpenAI` capability returned by
`ModelFactory.create_model`. -/
structure ChatModel where
  model_name : String
  openai_api_key : String
  openai_api_base : String
  max_tokens : Nat
  temperature : Int
deriving DecidableEq

/-- `ModelFactory.create_model`: look the provider up in the registry
(`ValueError` on an unknown provider), resolve the key as
`config.api_key or os.getenv(provider_config["api_key_env"])`
(`ValueError` when no truthy key results), and build the model with
`config.api_base or provider_config["api_base"]`. -/
def ModelFactory.create_model (getenv : String → Option String) (config : ModelConfig) :
    Except Err ChatModel :=
  match ModelFactory.PROVIDER_CONFIGS config.provider with
  | none => Except.error (Err.unsupportedProvider config.provider)
  | some provider_config =>
    let api_key :=
      match pyTruthy config.api_key with
      | some s => some s
      | none => getenv provider_config.api_key_env
    match pyTruthy api_key with
    | none => Except.error (Err.apiKeyNotFound config.provider)
    | some key =>
      Except.ok { model_name := config.model_name
                  openai_api_key := key
                  openai_api_base := (pyTruthy config.api_base).getD provider_config.api_base
                  max_tokens := config.max_tokens
                  temperature := config.temperature }

/-- The api key that `create_model` ends up using, when one resolves:
the explicit override when truthy, else the provider environment
variable. -/
def resolvedApiKey (getenv : String → Option String) (config : ModelConfig) :
    Option String :=
  match ModelFactory.PROVIDER_CONFIGS config.provider with
  | none => none
  | some provider_config =>
    pyTruthy (match pyTruthy config.api_key with
      | some s => some s
      | none => getenv provider_config.api_key_env)

/-! ## Query engine construction (`rag_pipeline.py`) -/

/-- `RAGPipeline` state: the bound vector store and the resolved model
capability. -/
structure RAGPipeline where
  vector_store : VectorStore
  llm : ChatModel
deriving DecidableEq

/-- `RAGPipeline.__init__`: stores the vector store and calls
`ModelFactory.create_model(model_config)` — the first and only point at
which configuration errors can surface. -/
def RAGPipeline.build (getenv : String → Option String) (vector_store : VectorStore)
    (model_config : ModelConfig) : Except Err RAGPipeline :=
  (ModelFactory.create_model getenv model_config).map fun llm =>
    { vector_store := vector_store, llm := llm }

/-! ## Ingestion coordinator (`main.py`) -/

/-- The external collaborators of one pipeline run: the object store
(listing already performed: `s3_client.list_files(bucket, prefix)`
returned `s3Keys`; `fetch` is `download_file` plus reading the local
copy, raising on transport failure), the per-format extraction routines
(raising on corrupt input), the embedding capability with its usage
callback, the docstore id generator and the process environment. -/
structure Env where
  getenv : String → Option String
  fs : FS
  s3Keys : List (List Char)
  fetch : List Char → Except String (List Char)
  extractPdf : List Char → Except String (List (List Char))
  extractImage : List Char → Except String (List (List Char))
  extractDocx : List Char → Except String (List Char)
  extractHtml : List Char → Except String (List Char)
  embed : List Char → EmbVec
  mkId : Nat → String
  embedCb : EmbedCb

/-- Observable steps of a pipeline run, in program order. -/
inductive Event
  | cacheCheck
  | cacheLoad
  | listBucket
  | fetchFile (key : List Char)
  | routeFile (key : List Char)
  | embedBuild
  | cacheSave
  | createModel
deriving DecidableEq

/-- Whether `async_process_file` has a supported-extension branch for
this key (case-insensitive suffix match). -/
def routeSupported (file_key : List Char) : Bool :=
  let key := lowerStr file_key
  endsWithCh key txtExt || endsWithCh key pdfExt ||
    endsWithCh key pngExt || endsWithCh key jpgExt || endsWithCh key jpegExt ||
    endsWithCh key docxExt || endsWithCh key htmlExt || endsWithCh key htmExt

/-- `DocumentProcessingPipeline.async_process_file`: download the file
first (any fetch failure raises out of this unit), then dispatch on the
lower-cased key suffix: `.txt` is split directly; `.pdf` pages are
loaded (raising on corrupt input) and split; images are loaded without
splitting; `.docx` and `.html`/`.htm` extraction failures are caught
inside `process_docx`/`process_html`, which return `[]`; any other
suffix is skipped with a warning and contributes `[]`.  The first
component is the trace of observable steps. -/
def DocumentProcessingPipeline.async_process_file (env : Env) (file_key : List Char) :
    List Event × Except Err (List Document) :=
  match env.fetch file_key with
  | Except.error e => ([Event.fetchFile file_key], Except.error (Err.fileError e))
  | Except.ok content =>
    let evs := [Event.fetchFile file_key, Event.routeFile file_key]
    let key := lowerStr file_key
    if endsWithCh key txtExt then
      (evs, Except.ok (DocumentProcessor.process_text content))
    else if endsWithCh key pdfExt then
      (evs, match env.extractPdf content with
        | Except.error e => Except.error (Err.fileError e)
        | Except.ok pages => Except.ok ((pages.map DocumentProcessor.process_text).flatten))
    else if endsWithCh key pngExt || endsWithCh key jpgExt || endsWithCh key jpegExt then
      (evs, match env.extractImage content with
        | Except.error e => Except.error (Err.fileError e)
        | Except.ok pages => Except.ok (pages.map Document.mk))
    else if endsWithCh key docxExt then
      (evs, match env.extractDocx content with
        | Except.error _ => Except.ok []
        | Except.ok full_text => Except.ok (DocumentProcessor.process_text full_text))
    else if endsWithCh key htmlExt || endsWithCh key htmExt then
      (evs, match env.extractHtml content with
        | Except.error _ => Except.ok []
        | Except.ok text => Except.ok (DocumentProcessor.process_text text))
    else
      (evs, Except.ok [])

/-- The listed keys that are scheduled as units of work: every listed
key that is not a directory marker (trailing `/`). -/
def listedKeys (env : Env) : List (List Char) :=
  env.s3Keys.filter fun k => !(endsWithCh k slashMark)

/-- The per-unit outcomes collected at the fan-out join
(`asyncio.gather(*tasks, return_exceptions=True)`), in task order. -/
def perFileResults (env : Env) : List (Except Err (List Document)) :=
  (listedKeys env).map fun k => (DocumentProcessingPipeline.async_process_file env k).2

/-- The result-collection loop after the join: an exception result is
logged and skipped; a non-empty document list (`elif result:`) is
appended to the aggregate. -/
def gatherDocuments (results : List (Except Err (List Document))) : List Document :=
  results.foldl
    (fun documents result =>
      match result with
      | Except.error _ => documents
      | Except.ok docs => if docs.isEmpty then documents else documents ++ docs)
    []

/-- Everything a successful run returns: the constructed query engine,
the cache slot after any save, and the accumulated usage totals. -/
structure RunResult where
  rag : RAGPipeline
  fsAfter : FS
  usage : Usage
deriving DecidableEq

/-- The ingestion path of `process_s3_bucket_async` (taken on a cache
miss or a forced reindex): list the bucket, fan out one unit per
non-directory key, gather results tolerating individual failures, raise
`ValueError` when no documents were successfully processed, otherwise
build the vector store, merge the embedding usage into the running
totals, save the store, and construct the query engine (which resolves
the model capability). -/
def DocumentProcessingPipeline.ingestAndBuild (env : Env) (model_config : ModelConfig) :
    List Event × Except Err RunResult :=
  let results := (listedKeys env).map fun k =>
    DocumentProcessingPipeline.async_process_file env k
  let evs := Event.listBucket :: (results.map Prod.fst).flatten
  let documents := gatherDocuments (results.map Prod.snd)
  if documents.isEmpty then
    (evs, Except.error Err.emptyCorpus)
  else
    match DocumentProcessor.create_vector_store env.embed env.mkId env.embedCb documents with
    | Except.error e => (evs ++ [Event.embedBuild], Except.error e)
    | Except.ok (vector_store, usage) =>
      let total := DocumentProcessingPipeline.update_usage initialUsage usage
      let fsAfter := VectorStoreManager.save vector_store env.fs
      (evs ++ [Event.embedBuild, Event.cacheSave, Event.createModel],
        match RAGPipeline.build env.getenv vector_store model_config with
        | Except.error e => Except.error e
        | Except.ok rag => Except.ok { rag := rag, fsAfter := fsAfter, usage := total })

/-- `DocumentProcessingPipeline.process_s3_bucket_async`: when the cache
exists and no reindex is forced, load it (read failures propagate) and
construct the query engine over the loaded store; otherwise run the
ingestion path. -/
def DocumentProcessingPipeline.process_s3_bucket_async (env : Env) (model_config : ModelConfig)
    (reindex : Bool) : List Event × Except Err RunResult :=
  if VectorStoreManager.cacheExists env.fs && !reindex then
    match VectorStoreManager.load env.fs with
    | Except.error e => ([Event.cacheCheck, Event.cacheLoad], Except.error e)
    | Except.ok (some vector_store) =>
      ([Event.cacheCheck, Event.cacheLoad, Event.createModel],
        match RAGPipeline.build env.getenv vector_store model_config with
        | Except.error e => Except.error e
        | Except.ok rag => Except.ok { rag := rag, fsAfter := env.fs, usage := initialUsage })
    | Except.ok none =>
      let r := DocumentProcessingPipeline.ingestAndBuild env model_config
      (Event.cacheCheck :: Event.cacheLoad :: r.1, r.2)
  else
    let r := DocumentProcessingPipeline.ingestAndBuild env model_config
    (Event.cacheCheck :: r.1, r.2)

/-- The docstore invariant of §3 of the spec: every id in the
internal-id-to-docstore-id map resolves to an existing docstore entry,
and the count of embedded vectors equals the count of docstore
entries. -/
def WellFormed (vs : VectorStore) : Prop :=
  (∀ id ∈ vs.index_to_docstore_id, ∃ d, (id, d) ∈ vs.docstore) ∧
    vs.index.length = vs.docstore.length

/-! ## Concrete fixtures used by witnesses and counterexamples -/

/-- Environment with only the deepseek key set. -/
def getenvDeepseek : String → Option String :=
  fun v => if v = "DEEPSEEK_API_KEY" then some "k" else none

/-- Empty cache slot. -/
def fsAbsent : FS := { indexFile := FileState.absent, docsFile := FileState.absent }

/-- Cache slot where both artifacts are present but the index file fails
to deserialize. -/
def fsIndexUnreadable : FS :=
  { indexFile := FileState.unreadable, docsFile := FileState.readable [] }

/-- Cache slot holding only the docs artifact (torn write). -/
def fsDocsOnly : FS :=
  { indexFile := FileState.absent, docsFile := FileState.readable [] }

/-- Toy embedding capability: the text length as a one-dimensional
vector. -/
def embedLen : List Char → EmbVec := fun s => [(s.length : Int)]

/-- Toy docstore id generator: distinct ids per position. -/
def mkIdX : Nat → String := fun n => String.mk (List.replicate (n + 1) 'x')

/-- Zero usage reported by the embedding callback. -/
def cbZero : EmbedCb := { total_tokens := 0, total_cost := 0, successful_requests := 0 }

/-- A run over a bucket holding one healthy text file, with no cache. -/
def envOneTxt : Env :=
  { getenv := getenvDeepseek
    fs := fsAbsent
    s3Keys := ["a.txt".data]
    fetch := fun _ => Except.ok ("hello".data)
    extractPdf := fun _ => Except.error "pdf"
    extractImage := fun _ => Except.error "img"
    extractDocx := fun _ => Except.error "docx"
    extractHtml := fun _ => Except.error "html"
    embed := embedLen
    mkId := mkIdX
    embedCb := cbZero }

/-- Same corpus, but the cache slot has both artifacts present with an
unreadable index. -/
def envUnreadableCache : Env := { envOneTxt with fs := fsIndexUnreadable }

/-- A bucket holding one unsupported-extension file whose fetch fails. -/
def envBinFetchFail : Env :=
  { envOneTxt with
    s3Keys := ["a.bin".data]
    fetch := fun _ => Except.error "boom" }

/-- A resolvable configuration (deepseek, key in the environment). -/
def configGood : ModelConfig := { provider := "deepseek", model_name := "deepseek-chat" }

/-- A configuration naming a provider absent from the registry. -/
def configBadProvider : ModelConfig := { provider := "anthropic", model_name := "m" }

/-- A store satisfying the docstore invariant, used for round-trip
witnesses. -/
def vsDemo : VectorStore :=
  { index := [[5]]
    docstore := [("x", Document.mk ("hello".data))]
    index_to_docstore_id := ["x"] }

/-- Usage dictionary with cost 2 ^ (-1074) (the smallest positive
double) and one token and request. -/
def deltaSmall : UsageDelta :=
  { total_tokens := some 1, total_cost := some 1, successful_requests := some 1 }

/-- Usage dictionary with cost 2 ^ (-1021) (equal to 2 ^ 53 units of
2 ^ (-1074)) and nothing else. -/
def deltaBig : UsageDelta := { total_cost := some (2 ^ 53) }

/-! ## Theorems -/

theorem lastCutBefore_bounds (pred : Char → Bool) (text : List Char) (lo : Nat) :
    ∀ hi p, lastCutBefore pred text lo hi = some p → lo < p ∧ p ≤ hi := by
  intro hi
  induction hi with
  | zero => intro p h; simp [lastCutBefore] at h
  | succ n ih =>
    intro p h
    rw [lastCutBefore] at h
    split at h
    · rename_i hc
      cases h
      exact ⟨hc.1, Nat.le_refl _⟩
    · obtain ⟨h1, h2⟩ := ih p h
      exact ⟨h1, Nat.le_succ_of_le h2⟩

theorem chooseCut_bounds (size overlap : Nat) (text : List Char)
    (hne : text ≠ []) (ho : overlap < size) :
    1 ≤ chooseCut size overlap text ∧ chooseCut size overlap text ≤ size ∧
      chooseCut size overlap text ≤ text.length ∧
      (size < text.length → overlap < chooseCut size overlap text) := by
  have hpos : 0 < text.length := List.length_pos.mpr hne
  unfold chooseCut
  split
  · rename_i hle
    exact ⟨hpos, hle, Nat.le_refl _, fun h => absurd hle (Nat.not_le.mpr h)⟩
  · rename_i hgt
    have hlt : size < text.length := Nat.lt_of_not_le hgt
    rcases hp : lastCutBefore isParagraphBreak text overlap size with _ | p
    · rcases hs : lastCutBefore isSentenceBreak text overlap size with _ | p
      · rcases hw : lastCutBefore isWordBreak text overlap size with _ | p
        · simp only [hp, hs, hw]
          omega
        · obtain ⟨h1, h2⟩ := lastCutBefore_bounds _ _ _ _ _ hw
          simp only [hp, hs, hw]
          omega
      · obtain ⟨h1, h2⟩ := lastCutBefore_bounds _ _ _ _ _ hs
        simp only [hp, hs]
        omega
    · obtain ⟨h1, h2⟩ := lastCutBefore_bounds _ _ _ _ _ hp
      simp only [hp]
      omega

theorem splitChunksAux_length (size overlap : Nat) (ho : overlap < size) :
    ∀ fuel rest, rest.length ≤ fuel →
      ∀ c ∈ splitChunksAux size overlap fuel rest, 1 ≤ c.length ∧ c.length ≤ size := by
  intro fuel
  induction fuel with
  | zero => intro rest _ c hc; simp [splitChunksAux] at hc
  | succ n ih =>
    intro rest hlen c hc
    rw [splitChunksAux] at hc
    split at hc
    · simp at hc
    · rename_i hemp
      have hne : rest ≠ [] := by
        intro h; rw [h] at hemp; simp at hemp
      obtain ⟨hc1, hc2, hc3, hc4⟩ := chooseCut_bounds size overlap rest hne ho
      split at hc
      · rename_i hfits
        rcases List.mem_singleton.mp hc with rfl
        exact ⟨List.length_pos.mpr hne, hfits⟩
      · rename_i hbig
        have hlt : size < rest.length := Nat.lt_of_not_le hbig
        rcases List.mem_cons.mp hc with rfl | hmem
        · constructor
          · rw [List.length_take]; omega
          · rw [List.length_take]; omega
        · have hstep : overlap < chooseCut size overlap rest := hc4 hlt
          have hdlen : (rest.drop (chooseCut size overlap rest - overlap)).length ≤ n := by
            rw [List.length_drop]; omega
          exact ih _ hdlen c hmem

theorem splitChunksAux_coverage (size overlap : Nat) (ho : overlap < size) :
    ∀ fuel rest, rest.length ≤ fuel →
      ∀ a ∈ rest, ∃ c ∈ splitChunksAux size overlap fuel rest, a ∈ c := by
  intro fuel
  induction fuel with
  | zero =>
    intro rest hlen a ha
    have : rest = [] := List.eq_nil_of_length_eq_zero (Nat.le_zero.mp hlen)
    rw [this] at ha; simp at ha
  | succ n ih =>
    intro rest hlen a ha
    rw [splitChunksAux]
    split
    · rename_i hemp
      rw [List.isEmpty_iff.mp hemp] at ha; simp at ha
    · rename_i hemp
      have hne : rest ≠ [] := by
        intro h; rw [h] at hemp; simp at hemp
      obtain ⟨hc1, hc2, hc3, hc4⟩ := chooseCut_bounds size overlap rest hne ho
      split
      · exact ⟨rest, List.mem_singleton.mpr rfl, ha⟩
      · rename_i hbig
        have hlt : size < rest.length := Nat.lt_of_not_le hbig
        have hstep : overlap < chooseCut size overlap rest := hc4 hlt
        have ha2 : a ∈ rest.take (chooseCut size overlap rest - overlap) ++
            rest.drop (chooseCut size overlap rest - overlap) := by
          rw [List.take_append_drop]; exact ha
        rcases List.mem_append.mp ha2 with h | h
        · refine ⟨rest.take (chooseCut size overlap rest), List.mem_cons_self _ _, ?_⟩
          have hsub : rest.take (chooseCut size overlap rest - overlap) =
              (rest.take (chooseCut size overlap rest)).take
                (chooseCut size overlap rest - overlap) := by
            rw [List.take_take, Nat.min_eq_left (Nat.sub_le _ _)]
          rw [hsub] at h
          exact List.take_subset _ _ h
        · have hdlen : (rest.drop (chooseCut size overlap rest - overlap)).length ≤ n := by
            rw [List.length_drop]; omega
          obtain ⟨c, hcmem, hac⟩ := ih _ hdlen a h
          exact ⟨c, List.mem_cons_of_mem _ hcmem, hac⟩

/-- C5: for every text input split with `chunk_size = 1000` and
`chunk_overlap = 200`, every output chunk has length at least 1 and at
most `chunk_size`, and every character of the input appears in at least
one output chunk (no silent truncation). -/
theorem c5_chunks_bounded_nonempty_and_covering (content : List Char) :
    (∀ c ∈ DocumentProcessor.process_text content,
        1 ≤ c.pageContent.length ∧ c.pageContent.length ≤ 1000) ∧
      ∀ a ∈ content, ∃ c ∈ DocumentProcessor.process_text content, a ∈ c.pageContent := by
  constructor
  · intro c hc
    simp only [DocumentProcessor.process_text, splitText, List.mem_map] at hc
    obtain ⟨l, hl, rfl⟩ := hc
    exact splitChunksAux_length 1000 200 (by norm_num) content.length content
      (Nat.le_refl _) l hl
  · intro a ha
    obtain ⟨l, hl, hal⟩ := splitChunksAux_coverage 1000 200 (by norm_num) content.length
      content (Nat.le_refl _) a ha
    exact ⟨Document.mk l, List.mem_map_of_mem Document.mk hl, hal⟩

/-- C5 witness: on the concrete input `"hello"` the first character is
covered by some chunk. -/
theorem c5_witness :
    ∃ c ∈ DocumentProcessor.process_text ("hello".data), 'h' ∈ c.pageContent :=
  (c5_chunks_bounded_nonempty_and_covering ("hello".data)).2 'h' (by decide)

/-- Saving and loading are inverse up to the reconstructed
internal-id map: the loaded store carries the saved index and docstore,
with `index_to_docstore_id` rebuilt by enumerating the docstore keys. -/
theorem load_save (vs : VectorStore) (fs : FS) :
    VectorStoreManager.load (VectorStoreManager.save vs fs) =
      Except.ok (some { index := vs.index, docstore := vs.docstore,
                        index_to_docstore_id := vs.docstore.map Prod.fst }) := by
  simp [VectorStoreManager.load, VectorStoreManager.save, VectorStoreManager.cacheExists,
    FileState.present, readArtifact, Bind.bind, Except.bind]

/-- C3 counterexample: with the index artifact present but unreadable and
the docs artifact present and readable, exists() reports true even though
one artifact is not readable — so exists() is not "both present and
readable". -/
theorem c3_counterexample :
    VectorStoreManager.cacheExists fsIndexUnreadable = true ∧
      fsIndexUnreadable.indexFile.isReadable = false := by decide

/-- C3 (amended): exists() returns true iff both persisted artifacts are
present on disk — readability is not checked; in particular it returns
false whenever exactly one of the two artifacts is present. -/
theorem c3_exists_is_presence_of_both_artifacts (fs : FS) :
    (VectorStoreManager.cacheExists fs = true ↔
        fs.indexFile.present = true ∧ fs.docsFile.present = true) ∧
      (fs.indexFile.present ≠ fs.docsFile.present →
        VectorStoreManager.cacheExists fs = false) := by
  constructor
  · simp [VectorStoreManager.cacheExists]
  · intro h
    cases hi : fs.indexFile.present <;> cases hd : fs.docsFile.present <;>
      simp_all [VectorStoreManager.cacheExists]

/-- C3 witness: a torn write holding only the docs artifact is reported
as no cache. -/
theorem c3_witness : VectorStoreManager.cacheExists fsDocsOnly = false :=
  (c3_exists_is_presence_of_both_artifacts fsDocsOnly).2 (by decide)

/-- C2: for a store satisfying the construction invariant (the
internal-id map lists the docstore keys in order — true of every store
the system builds), save followed by load reconstructs a store whose
retrieval results for any fixed query are identical: same chunk ids,
same rank order. -/
theorem c2_save_load_roundtrip (vs : VectorStore) (fs : FS) (q : EmbVec) (k : Nat)
    (hwf : vs.index_to_docstore_id = vs.docstore.map Prod.fst) :
    ∃ vs2, VectorStoreManager.load (VectorStoreManager.save vs fs) = Except.ok (some vs2) ∧
      vs2.retrievedIds q k = vs.retrievedIds q k := by
  refine ⟨_, load_save vs fs, ?_⟩
  rw [← hwf]

/-- C2 witness: the round trip at a concrete store and query. -/
theorem c2_witness :
    ∃ vs2, VectorStoreManager.load (VectorStoreManager.save vsDemo fsAbsent) =
        Except.ok (some vs2) ∧
      vs2.retrievedIds [5] 4 = vsDemo.retrievedIds [5] 4 :=
  c2_save_load_roundtrip vsDemo fsAbsent [5] 4 (by decide)

/-- C8: every store the system exposes satisfies the docstore invariant:
a freshly built store does, and loading a saved well-formed store yields
a well-formed store. -/
theorem c8_store_invariants :
    (∀ embed mkId cb documents vs u,
        DocumentProcessor.create_vector_store embed mkId cb documents =
            Except.ok (vs, u) → WellFormed vs) ∧
      ∀ vs fs vs2, WellFormed vs →
        VectorStoreManager.load (VectorStoreManager.save vs fs) = Except.ok (some vs2) →
          WellFormed vs2 := by
  constructor
  · intro embed mkId cb documents vs u h
    unfold DocumentProcessor.create_vector_store FAISS.from_documents at h
    split at h
    · simp [Except.map] at h
    · simp only [Except.map, Except.ok.injEq, Prod.mk.injEq] at h
      obtain ⟨hvs, -⟩ := h
      subst hvs
      constructor
      · intro id hid
        simp only [List.mem_map] at hid
        obtain ⟨p, hp, rfl⟩ := hid
        exact ⟨p.2, List.mem_map_of_mem _ hp⟩
      · simp
  · intro vs fs vs2 hwf h
    rw [load_save] at h
    obtain rfl := (Option.some.inj (Except.ok.inj h)).symm
    constructor
    · intro id hid
      simp only [List.mem_map] at hid
      obtain ⟨p, hp, rfl⟩ := hid
      exact ⟨p.2, hp⟩
    · simpa using hwf.2

/-- C8 witness: the id of the store built from one concrete document
resolves to a docstore entry. -/
theorem c8_witness :
    ∃ d, ("x", d) ∈ ([("x", Document.mk ("hello".data))] : List (String × Document)) :=
  (c8_store_invariants.1 embedLen mkIdX cbZero [Document.mk ("hello".data)]
      { index := [[5]]
        docstore := [("x", Document.mk ("hello".data))]
        index_to_docstore_id := ["x"] }
      { total_tokens := some 0, total_cost := some 0, successful_requests := some 0 }
      (by decide)).1 "x" (by decide)

/-- C9 counterexample: on an empty chunk sequence the builder fails with
the library index error, not with the EmptyCorpus error — there is no
defensive check of its own. -/
theorem c9_counterexample :
    DocumentProcessor.create_vector_store embedLen mkIdX cbZero [] =
        Except.error Err.libIndexError ∧
      Err.libIndexError ≠ Err.emptyCorpus := by decide

/-- C9 (amended): the builder has no defensive empty-input check: an
empty chunk sequence fails inside the embedding/index library with an
index error (not EmptyCorpus), while every non-empty sequence builds
successfully. -/
theorem c9_empty_input_fails_with_library_error (embed : List Char → EmbVec)
    (mkId : Nat → String) (cb : EmbedCb) :
    DocumentProcessor.create_vector_store embed mkId cb [] =
        Except.error Err.libIndexError ∧
      ∀ documents : List Document, documents ≠ [] →
        ∃ vs u, DocumentProcessor.create_vector_store embed mkId cb documents =
          Except.ok (vs, u) := by
  constructor
  · simp [DocumentProcessor.create_vector_store, FAISS.from_documents, Except.map]
  · intro documents hne
    cases documents with
    | nil => exact absurd rfl hne
    | cons d ds => exact ⟨_, _, rfl⟩

/-- C9 witness: the empty-input branch at concrete capabilities. -/
theorem c9_witness :
    DocumentProcessor.create_vector_store embedLen mkIdX cbZero [] =
      Except.error Err.libIndexError :=
  (c9_empty_input_fails_with_library_error embedLen mkIdX cbZero).1

/-- C7 counterexample: merging the same three usage records in two
different orders yields different totals — the running `total_cost` is a
binary64 float, and float accumulation is order-sensitive (costs
2 ^ (-1074), 2 ^ (-1074) and 2 ^ (-1021), i.e. 1, 1 and 2 ^ 53 units of
2 ^ (-1074)). -/
theorem c7_counterexample :
    List.foldl DocumentProcessingPipeline.update_usage initialUsage
        [deltaSmall, deltaSmall, deltaBig] ≠
      List.foldl DocumentProcessingPipeline.update_usage initialUsage
        [deltaBig, deltaSmall, deltaSmall] := by decide

/-- C7 (amended): merge is field-wise addition over the five counters
with any field missing from the delta treated as zero, and it changes
nothing besides the running totals; merging in any order or grouping
yields the same totals on the four integer counters, but the float
`total_cost` accumulation is order-sensitive. -/
theorem c7_fieldwise_addition_and_integer_commutativity (u : Usage) (a b : UsageDelta) :
    DocumentProcessingPipeline.update_usage u a =
        { total_tokens := u.total_tokens + (a.total_tokens.getD 0)
          prompt_tokens := u.prompt_tokens + (a.prompt_tokens.getD 0)
          completion_tokens := u.completion_tokens + (a.completion_tokens.getD 0)
          total_cost := fadd u.total_cost (a.total_cost.getD 0)
          successful_requests := u.successful_requests + (a.successful_requests.getD 0) } ∧
      ((DocumentProcessingPipeline.update_usage
            (DocumentProcessingPipeline.update_usage u a) b).total_tokens =
          (DocumentProcessingPipeline.update_usage
            (DocumentProcessingPipeline.update_usage u b) a).total_tokens ∧
        (DocumentProcessingPipeline.update_usage
            (DocumentProcessingPipeline.update_usage u a) b).prompt_tokens =
          (DocumentProcessingPipeline.update_usage
            (DocumentProcessingPipeline.update_usage u b) a).prompt_tokens ∧
        (DocumentProcessingPipeline.update_usage
            (DocumentProcessingPipeline.update_usage u a) b).completion_tokens =
          (DocumentProcessingPipeline.update_usage
            (DocumentProcessingPipeline.update_usage u b) a).completion_tokens ∧
        (DocumentProcessingPipeline.update_usage
            (DocumentProcessingPipeline.update_usage u a) b).successful_requests =
          (DocumentProcessingPipeline.update_usage
            (DocumentProcessingPipeline.update_usage u b) a).successful_requests) := by
  refine ⟨rfl, ?_, ?_, ?_, ?_⟩ <;>
    simp [DocumentProcessingPipeline.update_usage, Nat.add_assoc, Nat.add_comm,
      Nat.add_left_comm]

/-- C10: every per-file unit records its fetch before any extension
routing; for an unsupported-extension key, a fetch failure is still
recorded as a per-file error, and a successful fetch contributes an
empty document list. -/
theorem c10_fetch_precedes_extension_routing (env : Env) (file_key : List Char) :
    ((DocumentProcessingPipeline.async_process_file env file_key).1.head? =
        some (Event.fetchFile file_key)) ∧
      (routeSupported file_key = false →
        (∀ e, env.fetch file_key = Except.error e →
          (DocumentProcessingPipeline.async_process_file env file_key).2 =
            Except.error (Err.fileError e)) ∧
        ∀ content, env.fetch file_key = Except.ok content →
          (DocumentProcessingPipeline.async_process_file env file_key).2 =
            Except.ok []) := by
  constructor
  · rcases h : env.fetch file_key with e | content <;>
      simp only [DocumentProcessingPipeline.async_process_file, h] <;>
      first
        | rfl
        | (split_ifs <;> rfl)
  · intro hun
    simp only [routeSupported, Bool.or_eq_false_iff] at hun
    obtain ⟨⟨⟨⟨⟨⟨⟨h1, h2⟩, h3⟩, h4⟩, h5⟩, h6⟩, h7⟩, h8⟩ := hun
    constructor
    · intro e he
      simp [DocumentProcessingPipeline.async_process_file, he]
    · intro content hc
      simp [DocumentProcessingPipeline.async_process_file, hc, h1, h2, h3, h4, h5, h6, h7, h8]

/-- C10 witness: an unsupported `.bin` key whose fetch fails is recorded
as a per-file error. -/
theorem c10_witness :
    (DocumentProcessingPipeline.async_process_file envBinFetchFail ("a.bin".data)).2 =
      Except.error (Err.fileError "boom") :=
  ((c10_fetch_precedes_extension_routing envBinFetchFail ("a.bin".data)).2 (by decide)).1
    "boom" (by decide)

/-- The only errors `create_model` can raise are the two configuration
errors, both naming the configured provider. -/
theorem create_model_error_shape (getenv : String → Option String) (config : ModelConfig)
    (e : Err) (h : ModelFactory.create_model getenv config = Except.error e) :
    e = Err.unsupportedProvider config.provider ∨ e = Err.apiKeyNotFound config.provider := by
  rcases hp : ModelFactory.PROVIDER_CONFIGS config.provider with _ | pc
  · simp only [ModelFactory.create_model, hp] at h
    exact Or.inl (Except.error.inj h).symm
  · simp only [ModelFactory.create_model, hp] at h
    rcases hk : pyTruthy (match pyTruthy config.api_key with
        | some s => some s
        | none => getenv pc.api_key_env) with _ | key
    · rw [hk] at h
      exact Or.inr (Except.error.inj h).symm
    · rw [hk] at h
      exact Except.noConfusion h

/-- A cache slot that passes the existence check but holds an unreadable
artifact makes `load` raise. -/
theorem load_unreadable (fs : FS) (hex : VectorStoreManager.cacheExists fs = true)
    (hun : fs.indexFile.isReadable = false ∨ fs.docsFile.isReadable = false) :
    VectorStoreManager.load fs = Except.error Err.cacheIOError := by
  rcases hfi : fs.indexFile with _ | _ | d <;>
    rcases hfd : fs.docsFile with _ | _ | d2 <;>
      simp_all [VectorStoreManager.load, VectorStoreManager.cacheExists, readArtifact,
        FileState.present, FileState.isReadable, Bind.bind, Except.bind]

/-- On a cache miss or a forced reindex, the run is the ingestion path
prefixed with the cache check. -/
theorem process_miss (env : Env) (config : ModelConfig) (reindex : Bool)
    (hmiss : VectorStoreManager.cacheExists env.fs = false ∨ reindex = true) :
    DocumentProcessingPipeline.process_s3_bucket_async env config reindex =
      (Event.cacheCheck :: (DocumentProcessingPipeline.ingestAndBuild env config).1,
        (DocumentProcessingPipeline.ingestAndBuild env config).2) := by
  have hcond : (VectorStoreManager.cacheExists env.fs && !reindex) = false := by
    rcases hmiss with h | h <;> simp [h]
  simp [DocumentProcessingPipeline.process_s3_bucket_async, hcond]

/-- Behaviour of the ingestion path: the trace starts with the listing;
an empty aggregate raises `EmptyCorpus`; a non-empty aggregate builds
and saves the store, constructs the model capability last, propagates
its configuration errors and otherwise returns a store holding exactly
the aggregated documents. -/
theorem ingestAndBuild_spec (env : Env) (config : ModelConfig) :
    (∃ tail, (DocumentProcessingPipeline.ingestAndBuild env config).1 =
        Event.listBucket :: tail) ∧
      (gatherDocuments (perFileResults env) = [] →
        (DocumentProcessingPipeline.ingestAndBuild env config).2 =
          Except.error Err.emptyCorpus) ∧
      (gatherDocuments (perFileResults env) ≠ [] →
        (∃ pre, (DocumentProcessingPipeline.ingestAndBuild env config).1 =
            pre ++ [Event.createModel] ∧ Event.listBucket ∈ pre) ∧
          (∀ e, ModelFactory.create_model env.getenv config = Except.error e →
            (DocumentProcessingPipeline.ingestAndBuild env config).2 = Except.error e) ∧
          ∀ m, ModelFactory.create_model env.getenv config = Except.ok m →
            ∃ r, (DocumentProcessingPipeline.ingestAndBuild env config).2 = Except.ok r ∧
              r.rag.vector_store.docstore.map Prod.snd =
                gatherDocuments (perFileResults env)) := by
  have hres : ((listedKeys env).map fun k =>
      DocumentProcessingPipeline.async_process_file env k).map Prod.snd =
        perFileResults env := by
    rw [List.map_map]; rfl
  cases hG : gatherDocuments (perFileResults env) with
  | nil =>
    refine ⟨?_, fun _ => ?_, fun hne => absurd rfl hne⟩
    · simp only [DocumentProcessingPipeline.ingestAndBuild, hres, hG, List.isEmpty_nil,
        if_true]
      exact ⟨_, rfl⟩
    · simp only [DocumentProcessingPipeline.ingestAndBuild, hres, hG, List.isEmpty_nil,
        if_true]
  | cons d ds =>
    have hcvs : DocumentProcessor.create_vector_store env.embed env.mkId env.embedCb
        (d :: ds) = Except.ok
          ({ index := (d :: ds).map fun dd => env.embed dd.pageContent
             docstore := ((d :: ds).enum).map fun p => (env.mkId p.1, p.2)
             index_to_docstore_id := ((d :: ds).enum).map fun p => env.mkId p.1 },
            { total_tokens := some env.embedCb.total_tokens
              total_cost := some env.embedCb.total_cost
              successful_requests := some env.embedCb.successful_requests }) := rfl
    refine ⟨?_, fun h0 => (List.cons_ne_nil d ds h0).elim, fun _ => ⟨?_, ?_, ?_⟩⟩
    · simp only [DocumentProcessingPipeline.ingestAndBuild, hres, hG, List.isEmpty_cons,
        if_false, Bool.false_eq_true, hcvs]
      exact ⟨_, List.cons_append _ _ _⟩
    · simp only [DocumentProcessingPipeline.ingestAndBuild, hres, hG, List.isEmpty_cons,
        if_false, Bool.false_eq_true, hcvs]
      refine ⟨(Event.listBucket :: (((listedKeys env).map fun k =>
          DocumentProcessingPipeline.async_process_file env k).map Prod.fst).flatten) ++
            [Event.embedBuild, Event.cacheSave], ?_, ?_⟩
      · rw [List.append_assoc]
        rfl
      · exact List.mem_append_left _ (List.mem_cons_self _ _)
    · intro e he
      simp only [DocumentProcessingPipeline.ingestAndBuild, hres, hG, List.isEmpty_cons,
        if_false, Bool.false_eq_true, hcvs, RAGPipeline.build, he, Except.map]
    · intro m hm
      simp only [DocumentProcessingPipeline.ingestAndBuild, hres, hG, List.isEmpty_cons,
        if_false, Bool.false_eq_true, hcvs, RAGPipeline.build, hm, Except.map]
      refine ⟨_, rfl, ?_⟩
      rw [List.map_map]
      have hcomp : (Prod.snd ∘ fun p : Nat × Document => (env.mkId p.1, p.2)) =
          Prod.snd := rfl
      rw [hcomp, List.enum_map_snd]

/-- C1: each unit failure is caught individually and contributes zero
chunks without disturbing sibling units, and on a batch run the
coordinator raises the EmptyCorpus error exactly when zero chunks remain
after all units completed, returning the aggregated chunks otherwise
(inside the constructed engine, given a resolvable model
configuration). -/
theorem c1_failures_isolated_and_empty_corpus_iff (env : Env) (config : ModelConfig)
    (reindex : Bool) (xs ys : List (Except Err (List Document))) (e : Err)
    (hmiss : VectorStoreManager.cacheExists env.fs = false ∨ reindex = true)
    (hmodel : (ModelFactory.create_model env.getenv config).isOk = true) :
    gatherDocuments (xs ++ Except.error e :: ys) = gatherDocuments (xs ++ ys) ∧
      ((DocumentProcessingPipeline.process_s3_bucket_async env config reindex).2 =
          Except.error Err.emptyCorpus ↔ gatherDocuments (perFileResults env) = []) ∧
      (gatherDocuments (perFileResults env) ≠ [] →
        ∃ r, (DocumentProcessingPipeline.process_s3_bucket_async env config reindex).2 =
            Except.ok r ∧
          r.rag.vector_store.docstore.map Prod.snd = gatherDocuments (perFileResults env)) := by
  obtain ⟨m, hm⟩ : ∃ m, ModelFactory.create_model env.getenv config = Except.ok m := by
    rcases hcm : ModelFactory.create_model env.getenv config with e0 | m
    · rw [hcm] at hmodel; simp [Except.isOk, Except.toBool] at hmodel
    · exact ⟨m, rfl⟩
  obtain ⟨-, hempty, hfull⟩ := ingestAndBuild_spec env config
  rw [process_miss env config reindex hmiss]
  refine ⟨?_, ?_, ?_⟩
  · simp only [gatherDocuments, List.foldl_append, List.foldl_cons]
  · constructor
    · intro hres
      by_cases hD : gatherDocuments (perFileResults env) = []
      · exact hD
      · obtain ⟨r, hr, -⟩ := (hfull hD).2.2 m hm
        rw [hr] at hres
        exact Except.noConfusion hres
    · intro hD
      exact hempty hD
  · intro hD
    exact (hfull hD).2.2 m hm

/-- C1 witness: a batch with one healthy text file yields an engine
holding exactly the aggregated chunks. -/
theorem c1_witness :
    ∃ r, (DocumentProcessingPipeline.process_s3_bucket_async envOneTxt configGood false).2 =
        Except.ok r ∧
      r.rag.vector_store.docstore.map Prod.snd = gatherDocuments (perFileResults envOneTxt) :=
  (c1_failures_isolated_and_empty_corpus_iff envOneTxt configGood false [] []
      Err.cacheIOError (Or.inl (by decide)) (by decide)).2.2 (by decide)

/-- C4 counterexample: with an unknown provider and an empty cache slot,
the run lists the bucket and fetches the file before the configuration
error surfaces — configuration errors are not raised before ingestion
work begins. -/
theorem c4_counterexample :
    Event.listBucket ∈
        (DocumentProcessingPipeline.process_s3_bucket_async envOneTxt configBadProvider
          false).1 ∧
      Event.fetchFile ("a.txt".data) ∈
        (DocumentProcessingPipeline.process_s3_bucket_async envOneTxt configBadProvider
          false).1 ∧
      (DocumentProcessingPipeline.process_s3_bucket_async envOneTxt configBadProvider
          false).2 = Except.error (Err.unsupportedProvider "anthropic") := by decide

/-- C4 (amended): unknown-provider and missing-key errors are raised at
model-capability construction time (create_model fails exactly when the
provider is not in the registry or no truthy key resolves from the
override or the provider environment variable), but the model capability
is constructed only when the query engine is built, which on a cache
miss happens after listing, fetching and chunking have completed — not
before ingestion begins; its error is the run's result. -/
theorem c4_config_errors_surface_after_ingestion (getenv : String → Option String)
    (config : ModelConfig) (env : Env) (reindex : Bool)
    (hmiss : VectorStoreManager.cacheExists env.fs = false ∨ reindex = true)
    (hne : gatherDocuments (perFileResults env) ≠ []) :
    ((ModelFactory.create_model getenv config).isOk = false ↔
        (ModelFactory.PROVIDER_CONFIGS config.provider = none ∨
          resolvedApiKey getenv config = none)) ∧
      (∃ pre, (DocumentProcessingPipeline.process_s3_bucket_async env config reindex).1 =
          (Event.cacheCheck :: pre) ++ [Event.createModel] ∧ Event.listBucket ∈ pre) ∧
      ∀ e, ModelFactory.create_model env.getenv config = Except.error e →
        (DocumentProcessingPipeline.process_s3_bucket_async env config reindex).2 =
          Except.error e := by
  obtain ⟨-, -, hfull⟩ := ingestAndBuild_spec env config
  refine ⟨?_, ?_, ?_⟩
  · rcases hp : ModelFactory.PROVIDER_CONFIGS config.provider with _ | pc
    · simp [ModelFactory.create_model, hp, resolvedApiKey, Except.isOk, Except.toBool]
    · rcases hk : pyTruthy (match pyTruthy config.api_key with
          | some s => some s
          | none => getenv pc.api_key_env) with _ | key
      · simp [ModelFactory.create_model, hp, hk, resolvedApiKey, Except.isOk, Except.toBool]
      · simp [ModelFactory.create_model, hp, hk, resolvedApiKey, Except.isOk, Except.toBool]
  · obtain ⟨pre, hpre, hmem⟩ := (hfull hne).1
    rw [process_miss env config reindex hmiss]
    refine ⟨pre, ?_, hmem⟩
    simp only [hpre, List.cons_append]
  · intro e he
    rw [process_miss env config reindex hmiss]
    exact (hfull hne).2.1 e he

/-- C4 witness: on the concrete one-file corpus the model-construction
step is the last event, after the listing. -/
theorem c4_witness :
    ∃ pre, (DocumentProcessingPipeline.process_s3_bucket_async envOneTxt configBadProvider
        false).1 = (Event.cacheCheck :: pre) ++ [Event.createModel] ∧
      Event.listBucket ∈ pre :=
  (c4_config_errors_surface_after_ingestion getenvDeepseek configBadProvider envOneTxt
      false (Or.inl (by decide)) (by decide)).2.1

/-- C6 counterexample: with both artifacts present but the index file
unreadable, the run surfaces the cache read error to the caller instead
of treating the state as a cache miss. -/
theorem c6_counterexample :
    (DocumentProcessingPipeline.process_s3_bucket_async envUnreadableCache configGood
        false).2 = Except.error Err.cacheIOError := by decide

/-- C6 (amended): a missing artifact (exists() false) is treated as a
cache miss that triggers a full reindex and no cache-I/O error is ever
surfaced on that path; but when both artifacts are present and either
fails to open or deserialize, the load error propagates to the caller as
a distinct cache-I/O failure. -/
theorem c6_missing_is_miss_but_unreadable_raises (env : Env) (config : ModelConfig)
    (reindex : Bool) :
    (VectorStoreManager.cacheExists env.fs = false →
        Event.listBucket ∈
            (DocumentProcessingPipeline.process_s3_bucket_async env config reindex).1 ∧
          (DocumentProcessingPipeline.process_s3_bucket_async env config reindex).2 ≠
            Except.error Err.cacheIOError) ∧
      (reindex = false → VectorStoreManager.cacheExists env.fs = true →
        (env.fs.indexFile.isReadable = false ∨ env.fs.docsFile.isReadable = false) →
        (DocumentProcessingPipeline.process_s3_bucket_async env config reindex).2 =
          Except.error Err.cacheIOError) := by
  constructor
  · intro hex
    rw [process_miss env config reindex (Or.inl hex)]
    obtain ⟨⟨tail, htail⟩, hempty, hfull⟩ := ingestAndBuild_spec env config
    constructor
    · rw [htail]
      exact List.mem_cons_of_mem _ (List.mem_cons_self _ _)
    · by_cases hD : gatherDocuments (perFileResults env) = []
      · rw [hempty hD]
        intro hcontra
        exact Err.noConfusion (Except.error.inj hcontra)
      · rcases hcm : ModelFactory.create_model env.getenv config with e0 | m
        · rw [(hfull hD).2.1 e0 hcm]
          intro hcontra
          rcases create_model_error_shape env.getenv config e0 hcm with h | h <;>
            · rw [h] at hcontra
              exact Err.noConfusion (Except.error.inj hcontra)
        · obtain ⟨r, hr, -⟩ := (hfull hD).2.2 m hcm
          rw [hr]
          exact fun hcontra => Except.noConfusion hcontra
  · intro hr hex hun
    have hload := load_unreadable env.fs hex hun
    simp [DocumentProcessingPipeline.process_s3_bucket_async, hex, hr, hload]

/-- C6 witness: an absent cache takes the ingestion path (the listing
occurs) rather than producing a cache error. -/
theorem c6_witness :
    Event.listBucket ∈
      (DocumentProcessingPipeline.process_s3_bucket_async envOneTxt configGood false).1 :=
  ((c6_missing_is_miss_but_unreadable_raises envOneTxt configGood false).1 (by decide)).1
